import Mathlib

/-!
Verification of the helm-reference-gen documentation generator
(hack/helm-reference-gen/main.go): a shallow embedding of the YAML-node
pairing/dispatch logic, the DocNode tree builder, and the renderer, with
theorems checking the specified properties.

The generic YAML parser (gopkg.in/yaml.v3) is an external collaborator: we
embed its already-parsed node tree (`YamlNode`) directly, as the spec's
boundary contract prescribes.  `DocNode`'s methods `HTMLAnchor` and
`Validate` live in doc_node.go, which is not part of the sources here;
they are modelled from the spec (see their doc comments).
-/

namespace ConsulHelmGen

/-- The node kinds of gopkg.in/yaml.v3 (yaml.Kind). -/
inductive YKind : Type where
  | documentKind
  | sequence
  | mapping
  | scalar
  | aliasKind
deriving DecidableEq, Repr

/-- The scalar styles of gopkg.in/yaml.v3 (yaml.Style) that the claims
exercise: plain scalars and double-quoted scalars. -/
inductive YStyle : Type where
  | plain
  | doubleQuoted
deriving DecidableEq, Repr

/-- An already-parsed yaml.v3 node (yaml.Node): kind, tag, value, column,
head comment, style and the child content. -/
inductive YamlNode : Type where
  | mk (kind : YKind) (tag : String) (value : String) (column : Nat)
      (headComment : String) (style : YStyle) (content : List YamlNode)

def YamlNode.kind : YamlNode → YKind
  | .mk k _ _ _ _ _ _ => k

def YamlNode.tag : YamlNode → String
  | .mk _ t _ _ _ _ _ => t

def YamlNode.value : YamlNode → String
  | .mk _ _ v _ _ _ _ => v

def YamlNode.column : YamlNode → Nat
  | .mk _ _ _ c _ _ _ => c

def YamlNode.headComment : YamlNode → String
  | .mk _ _ _ _ h _ _ => h

def YamlNode.style : YamlNode → YStyle
  | .mk _ _ _ _ _ s _ => s

def YamlNode.content : YamlNode → List YamlNode
  | .mk _ _ _ _ _ _ c => c

/-- One documented configuration entry (DocNode, declared in doc_node.go;
its fields are exactly the ones main.go constructs: Column,
ParentBreadcrumb, ParentWasMap, Key, Comment, KindTag, Default, Children;
Go zero values are `""`, `false`, `[]`). -/
inductive DocNode : Type where
  | mk (column : Nat) (parentBreadcrumb : String) (parentWasMap : Bool)
      (key : String) (comment : String) (kindTag : String)
      (defaultVal : String) (children : List DocNode)

def DocNode.column : DocNode → Nat
  | .mk c _ _ _ _ _ _ _ => c

def DocNode.parentBreadcrumb : DocNode → String
  | .mk _ b _ _ _ _ _ _ => b

def DocNode.parentWasMap : DocNode → Bool
  | .mk _ _ w _ _ _ _ _ => w

def DocNode.key : DocNode → String
  | .mk _ _ _ k _ _ _ _ => k

def DocNode.comment : DocNode → String
  | .mk _ _ _ _ cm _ _ _ => cm

def DocNode.kindTag : DocNode → String
  | .mk _ _ _ _ _ t _ _ => t

def DocNode.defaultVal : DocNode → String
  | .mk _ _ _ _ _ _ d _ => d

def DocNode.children : DocNode → List DocNode
  | .mk _ _ _ _ _ _ _ ch => ch

/-- Replace the children of a DocNode (models the Go assignment
`docNode.Children, err = parseNodeContent(...)`). -/
def DocNode.withChildren : DocNode → List DocNode → DocNode
  | .mk c b w k cm t d _, ch => .mk c b w k cm t d ch

/-- The ParseError struct used by main.go (declared in doc_node.go; the
fields are the ones main.go sets: FullAnchor, ParentAnchor, CurrAnchor,
Err; Go zero value is `""`). -/
structure ParseError : Type where
  fullAnchor : String
  parentAnchor : String
  currAnchor : String
  err : String
deriving DecidableEq, Repr

/-- The ways the build can fail: a *ParseError, a Go runtime panic
(out-of-range slice index), or a plain fmt.Errorf error (the fall-through
case of buildDocNode). -/
inductive BuildErr : Type where
  | parseError (e : ParseError)
  | runtimePanic (msg : String)
  | goError (msg : String)
deriving DecidableEq, Repr

/-! ### Annotation extractor

main.go matches the multiline regex `(?m).*@recurse: (.*)$` against a
node's raw head comment with FindStringSubmatch.  Since `.` does not
match a newline, a match lies inside a single line; the leftmost match
starts at the beginning of the first line containing `"@recurse: "`, and
the greedy leading `.*` then places the capture after the *last*
occurrence of `"@recurse: "` on that line, running to the end of the
line.  We model this over the comment's characters. -/

/-- Split a character list at newlines, like the lines the multiline
regex anchors `^`/`$` delimit. -/
def splitLines : List Char → List (List Char)
  | [] => [[]]
  | c :: cs =>
    match splitLines cs with
    | [] => if c = '\n' then [[], []] else [[c]]
    | l :: ls => if c = '\n' then [] :: l :: ls else (c :: l) :: ls

/-- Capture of a greedy leading `.*` before `pat` within one line: the
characters after the last occurrence of `pat`, if `pat` occurs. -/
def captureAfterLast (pat : List Char) : List Char → Option (List Char)
  | [] => none
  | c :: cs =>
    match captureAfterLast pat cs with
    | some r => some r
    | none =>
      if pat.isPrefixOf (c :: cs) then some ((c :: cs).drop pat.length) else none

/-- The capture group of the first (leftmost) match of the recurse
regex `(?m).*@recurse: (.*)$` (main.go line 28), or `none` when the
comment does not match. -/
def recurseAnnotationCapture (comment : String) : Option String :=
  (splitLines comment.data).findSome? fun line =>
    (captureAfterLast "@recurse: ".data line).map fun cs => String.mk cs

/-! ### Anchor and sibling validation (doc_node.go, not in the sources) -/

/-- Modelled from the spec: the anchor sanitization of
`DocNode.HTMLAnchor`, which lives in doc_node.go (not among the source
files).  Spec 4.5: a URL-safe identifier, lower-cased, with
non-alphanumeric characters normalized to a separator. -/
def sanitizeAnchor (s : String) : String :=
  String.mk (s.data.map fun c => if c.isAlphanum then c.toLower else '-')

/-- Modelled from the spec: `DocNode.HTMLAnchor` (doc_node.go, not among
the source files).  Spec 4.5: derived deterministically from the
concatenation of the ancestor breadcrumb and the node's own key. -/
def DocNode.HTMLAnchor (n : DocNode) : String :=
  sanitizeAnchor (n.parentBreadcrumb ++ "-" ++ n.key)

/-- Modelled from the spec: `DocNode.Validate` (doc_node.go, not among
the source files).  Spec 4.6: run once per constructed node before it is
accepted into the tree; we model the anchor-uniqueness check against the
already-accepted siblings (the part the claims exercise), returning the
error message or `none`. -/
def Validate (n : DocNode) (accepted : List DocNode) : Option String :=
  if accepted.any fun s => s.HTMLAnchor = n.HTMLAnchor then
    some ("duplicate html anchor: " ++ n.HTMLAnchor)
  else
    none

/-! ### Scalar-sequence helpers (main.go 170-205) -/

/-- allScalars (main.go 170-179): true if content contains only scalar
nodes with no children. -/
def allScalars (content : List YamlNode) : Bool :=
  content.all fun n => n.kind == YKind.scalar && n.content.length == 0

/-- The yaml.v3 emitter's rendering of one scalar node (external
collaborator, modelled for the styles `YStyle` covers): a double-quoted
scalar keeps its quotes, a plain scalar is its literal text. -/
def marshalScalar (n : YamlNode) : String :=
  match n.style with
  | .doubleQuoted => "\"" ++ n.value ++ "\""
  | .plain => n.value

/-- strings.TrimPrefix: drop `pre` when it is a prefix of `s`. -/
def trimPrefixStr (s pre : String) : String :=
  if pre.data.isPrefixOf s.data then String.mk (s.data.drop pre.data.length) else s

/-- toInlineYaml (main.go 188-205): yaml.Marshal of the intermediary
struct whose single field `arr` holds the scalars in flow style, with the
leading "arr: " trimmed.  The emitter (external collaborator) renders a
flow sequence as the scalars joined by comma-space inside brackets, and
every yaml.Marshal output ends with a newline; marshalling the scalar
nodes cannot fail, so the Go error path is unreachable in this model. -/
def toInlineYaml (content : List YamlNode) : String :=
  trimPrefixStr
    ("arr: " ++ "[" ++ String.intercalate ", " (content.map marshalScalar) ++ "]" ++ "\n")
    "arr: "

/-! ### The recursive tree builder (main.go 101-151, 207-318) -/

theorem YamlNode.sizeOf_content_lt (n : YamlNode) : sizeOf n.content < sizeOf n := by
  cases n with
  | mk k t v c h s ct => simp [YamlNode.content]

mutual

/-- parseNodeContent (main.go 103-151): the single-element "array of
maps" wrapper is unwrapped transparently (`len(nodeContent) == 1`),
otherwise the skip-flag pairing loop runs from index 0. -/
def parseNodeContent (nodeContent : List YamlNode) (parentBreadcrumb : String)
    (parentWasMap : Bool) : Except BuildErr (List DocNode) :=
  match nodeContent with
  | [n] => parseNodeContent n.content parentBreadcrumb true
  | rest => parseLoop rest 0 parentBreadcrumb parentWasMap []
termination_by (sizeOf nodeContent, 3, 0)
decreasing_by
· have h1 : sizeOf n.content < sizeOf n := YamlNode.sizeOf_content_lt n
  apply Prod.Lex.left
  simp only [List.cons.sizeOf_spec, List.nil.sizeOf_spec]
  omega
· apply Prod.Lex.right
  apply Prod.Lex.left
  omega

/-- The pairing loop of parseNodeContent (main.go 127-149).  The Go loop
walks every index but skips the one after each built node, so it visits
the indices 0, 2, 4, …; `acc` is the accumulated `docNodes` slice.  A
node failing `Validate` aborts with a *ParseError carrying the node's
anchor (main.go 139-144). -/
def parseLoop (nodeContent : List YamlNode) (i : Nat) (parentBreadcrumb : String)
    (parentWasMap : Bool) (acc : List DocNode) : Except BuildErr (List DocNode) :=
  if h : i < nodeContent.length then
    match buildDocNode i nodeContent[i] nodeContent parentBreadcrumb parentWasMap with
    | .error e => .error e
    | .ok docNode =>
      match Validate docNode acc with
      | some msg => .error (.parseError (ParseError.mk docNode.HTMLAnchor "" "" msg))
      | none => parseLoop nodeContent (i + 2) parentBreadcrumb parentWasMap (acc ++ [docNode])
  else
    .ok acc
termination_by (sizeOf nodeContent, 2, nodeContent.length - i)
decreasing_by
· apply Prod.Lex.right
  apply Prod.Lex.left
  omega
· apply Prod.Lex.right
  apply Prod.Lex.right
  omega

/-- buildDocNode (main.go 207-218): when the head comment's recurse
capture is exactly "false", return the terminal node at once (only
Column, ParentBreadcrumb, Key, Comment set; ParentWasMap explicitly
false); otherwise dispatch on the paired value. -/
def buildDocNode (nodeContentIdx : Nat) (currNode : YamlNode) (nodeContent : List YamlNode)
    (parentBreadcrumb : String) (parentWasMap : Bool) : Except BuildErr DocNode :=
  if recurseAnnotationCapture currNode.headComment = some "false" then
    .ok (DocNode.mk currNode.column parentBreadcrumb false currNode.value
      currNode.headComment "" "" [])
  else
    buildDocNodePair nodeContentIdx currNode nodeContent parentBreadcrumb parentWasMap
termination_by (sizeOf nodeContent, 1, 0)
decreasing_by
· apply Prod.Lex.right
  apply Prod.Lex.left
  omega

/-- buildDocNode's pair lookup and kind dispatch (main.go 220-318).
The guard `len(nodeContent) < nodeContentIdx+1` is translated verbatim;
when it does not fire, the Go code indexes `nodeContent[nodeContentIdx+1]`,
which panics when that index is out of range. -/
def buildDocNodePair (nodeContentIdx : Nat) (currNode : YamlNode) (nodeContent : List YamlNode)
    (parentBreadcrumb : String) (parentWasMap : Bool) : Except BuildErr DocNode :=
  if nodeContent.length < nodeContentIdx + 1 then
    .error (.parseError (ParseError.mk "" parentBreadcrumb currNode.value
      ("content length incorrect, expected " ++ toString (nodeContentIdx + 1) ++ " got "
        ++ toString nodeContent.length)))
  else
    -- Go reads `next := nodeContent[nodeContentIdx+1]`; an out-of-range
    -- index is a runtime panic.
    if h : nodeContentIdx + 1 < nodeContent.length then
      let next := nodeContent[nodeContentIdx + 1]
      match next.kind with
      | .scalar =>
        .ok (DocNode.mk currNode.column parentBreadcrumb parentWasMap currNode.value
          currNode.headComment next.tag next.value [])
      | .mapping =>
        let docNode := DocNode.mk currNode.column parentBreadcrumb parentWasMap currNode.value
          currNode.headComment next.tag "" []
        match parseNodeContent next.content docNode.HTMLAnchor false with
        | .error e => .error e
        | .ok children => .ok (docNode.withChildren children)
      | .sequence =>
        if next.content.length = 0 then
          .ok (DocNode.mk currNode.column parentBreadcrumb parentWasMap currNode.value
            currNode.headComment next.tag "[]" [])
        else if allScalars next.content then
          .ok (DocNode.mk currNode.column parentBreadcrumb parentWasMap currNode.value
            currNode.headComment next.tag (toInlineYaml next.content) [])
        else
          let docNode := DocNode.mk currNode.column parentBreadcrumb parentWasMap currNode.value
            currNode.headComment next.tag "" []
          match parseNodeContent next.content docNode.HTMLAnchor false with
          | .error e => .error e
          | .ok children => .ok (docNode.withChildren children)
      | _ =>
        .error (.goError ("fell through cases unexpectedly at breadcrumb: " ++ parentBreadcrumb))
    else
      .error (.runtimePanic "index out of range")
termination_by (sizeOf nodeContent, 0, 0)
decreasing_by
all_goals
· have h1 : nodeContent[nodeContentIdx + 1] ∈ nodeContent := List.getElem_mem h
  have h2 : sizeOf nodeContent[nodeContentIdx + 1] < sizeOf nodeContent :=
    List.sizeOf_lt_of_mem h1
  have h3 := YamlNode.sizeOf_content_lt nodeContent[nodeContentIdx + 1]
  apply Prod.Lex.left
  omega

end

/-- Parse (main.go 82-99): build the DocNode tree from the root mapping's
flattened content (the yaml text unmarshalling and the
`node.Content[0].Content` step are the external parser's side of the
boundary; `rootContent` is the node list it hands over).  The root is the
synthetic DocNode with Column 0 holding the children. -/
def Parse (rootContent : List YamlNode) : Except BuildErr DocNode :=
  match parseNodeContent rootContent "" false with
  | .error e => .error e
  | .ok children => .ok (DocNode.mk 0 "" false "" "" "" "" children)

/-! ### Renderer (main.go 153-168, 71-79) -/

/-- The loop body of generateDocsFromNode (main.go 155-166) over a child
list: for each child, emit its own record, then the fully rendered
records of its subtree, then continue with the next sibling.  The
concrete record text comes from executing docNodeTmpl, whose fields are
methods of doc_node.go (not among the source files); it is abstracted as
the function `render`. -/
def genList (render : DocNode → String) : List DocNode → List String
  | [] => []
  | DocNode.mk c b w k cm t d ch :: siblings =>
    (render (DocNode.mk c b w k cm t d ch) :: genList render ch) ++ genList render siblings
termination_by l => sizeOf l

/-- generateDocsFromNode (main.go 153-168): render the node's children
(the node itself is not rendered). -/
def generateDocsFromNode (render : DocNode → String) (node : DocNode) : List String :=
  genList render node.children

/-- strings.ReplaceAll (external collaborator) over character lists, for
a non-empty pattern: scan left to right, replacing each (non-overlapping)
occurrence of `pat` by `rep` and continuing after it. -/
def replaceAllL (pat rep : List Char) : List Char → List Char
  | [] => []
  | c :: cs =>
    if pat ≠ [] ∧ pat.isPrefixOf (c :: cs) then
      rep ++ replaceAllL pat rep (cs.drop (pat.length - 1))
    else
      c :: replaceAllL pat rep cs
termination_by s => s.length
decreasing_by
· simp only [List.length_cons, List.length_drop]
  omega
· simp only [List.length_cons]
  omega

/-- The number of (non-overlapping, left-to-right) occurrences of `pat`
that the replaceAll scan consumes: the number of replacements made. -/
def countOcc (pat : List Char) : List Char → Nat
  | [] => 0
  | c :: cs =>
    if pat ≠ [] ∧ pat.isPrefixOf (c :: cs) then
      countOcc pat (cs.drop (pat.length - 1)) + 1
    else
      countOcc pat cs
termination_by s => s.length
decreasing_by
· simp only [List.length_cons, List.length_drop]
  omega
· simp only [List.length_cons]
  omega

/-- strings.ReplaceAll on strings. -/
def replaceAllStr (s old new : String) : String :=
  String.mk (replaceAllL old.data new.data s.data)

/-- GenerateDocs (main.go 71-79): parse, render the tree, join the
records with blank lines, then replace every occurrence of
"[Enterprise Only]" with "<EnterpriseAlert inline />" in one global pass
over the joined text. -/
def GenerateDocs (render : DocNode → String) (rootContent : List YamlNode) :
    Except BuildErr String :=
  match Parse rootContent with
  | .error e => .error e
  | .ok node =>
    .ok (replaceAllStr (String.intercalate "\n\n" (generateDocsFromNode render node))
      "[Enterprise Only]" "<EnterpriseAlert inline />")

/-- Written from the spec's words (4.7) for comparison with the renderer:
the depth-first pre-order listing of a forest — each node, then its fully
traversed children, then its next sibling. -/
def preorderForest : List DocNode → List DocNode
  | [] => []
  | DocNode.mk c b w k cm t d ch :: siblings =>
    DocNode.mk c b w k cm t d ch :: (preorderForest ch ++ preorderForest siblings)
termination_by l => sizeOf l

/-! ### Occurrence lemmas for replaceAllL -/

/-- An occurrence of a non-empty `pat` inside `a ++ t` either places
pat's first character inside `a`, or lies entirely inside `t`. -/
theorem append_infix_split (pat a t : List Char) (hp : pat ≠ [])
    (h : pat <:+: a ++ t) :
    (∃ p0 pr, pat = p0 :: pr ∧ p0 ∈ a) ∨ pat <:+: t := by
  induction a with
  | nil => right; simpa using h
  | cons x a' ih =>
    rw [List.cons_append, List.infix_cons_iff] at h
    rcases h with hpre | hinf
    · left
      cases pat with
      | nil => exact absurd rfl hp
      | cons p0 pr =>
        have h0 : p0 = x := (List.cons_prefix_cons.mp hpre).1
        exact ⟨p0, pr, rfl, by simp [h0]⟩
    · rcases ih hinf with ⟨p0, pr, hpat, hmem⟩ | h2
      · exact Or.inl ⟨p0, pr, hpat, by simp [hmem]⟩
      · exact Or.inr h2

/-- A non-empty list of pattern characters that is a prefix of the
replaceAll output is already a prefix of the input: replacements start
with `r0`, which is not a pattern character. -/
theorem replaceAll_prefix_pullback (pat rep : List Char) (r0 : Char) (rep' : List Char)
    (hrep : rep = r0 :: rep') (hr0 : r0 ∉ pat) (s q : List Char) (hq : q ≠ [])
    (hqpat : ∀ a ∈ q, a ∈ pat) (h : q <+: replaceAllL pat rep s) : q <+: s := by
  match s with
  | [] =>
    rw [replaceAllL] at h
    exact absurd (List.prefix_nil.mp h) hq
  | c :: cs =>
    rw [replaceAllL] at h
    split at h
    · rw [hrep] at h
      cases q with
      | nil => exact absurd rfl hq
      | cons q0 q' =>
        have h0 : q0 = r0 := (List.cons_prefix_cons.mp (by simpa using h)).1
        have hmem : q0 ∈ pat := hqpat q0 (by simp)
        rw [h0] at hmem
        exact absurd hmem hr0
    · cases q with
      | nil => exact absurd rfl hq
      | cons q0 q' =>
        obtain ⟨h0, hq'⟩ := List.cons_prefix_cons.mp h
        by_cases hq'nil : q' = []
        · subst hq'nil h0
          simp
        · have hrec : q' <+: cs :=
            replaceAll_prefix_pullback pat rep r0 rep' hrep hr0 cs q' hq'nil
              (fun a ha => hqpat a (by simp [ha])) hq'
          exact List.cons_prefix_cons.mpr ⟨h0, hrec⟩
termination_by s.length

/-- The replaceAll scan leaves no occurrence of the pattern behind,
provided the pattern's first character does not occur in the replacement
and the replacement's first character does not occur in the pattern. -/
theorem replaceAll_no_occurrence (pat rep : List Char) (p0 r0 : Char) (pat' rep' : List Char)
    (hpat : pat = p0 :: pat') (hrep : rep = r0 :: rep')
    (hp0 : p0 ∉ rep) (hr0 : r0 ∉ pat) (s : List Char) :
    ¬ pat <:+: replaceAllL pat rep s := by
  match s with
  | [] =>
    rw [replaceAllL]
    intro h
    rw [List.infix_nil.mp h] at hpat
    exact List.noConfusion hpat
  | c :: cs =>
    rw [replaceAllL]
    split
    · intro h
      rcases append_infix_split pat rep _ (by simp [hpat]) h with ⟨q0, qr, hq, hmem⟩ | hinf
      · rw [hpat] at hq
        injection hq with h1 _
        rw [← h1] at hmem
        exact absurd hmem hp0
      · exact replaceAll_no_occurrence pat rep p0 r0 pat' rep' hpat hrep hp0 hr0 _ hinf
    · rename_i hcond
      intro h
      rw [List.infix_cons_iff] at h
      rcases h with hpre | hinf
      · rw [hpat] at hpre
        obtain ⟨h0, hpre'⟩ := List.cons_prefix_cons.mp hpre
        rw [← hpat] at hpre'
        by_cases hnil : pat' = []
        · apply hcond
          refine ⟨by simp [hpat], List.isPrefixOf_iff_prefix.mpr ?_⟩
          rw [hpat, hnil, h0]
          simp
        · have hsub : pat' <+: cs :=
            replaceAll_prefix_pullback pat rep r0 rep' hrep hr0 cs pat' hnil
              (fun a ha => by simp [hpat, ha]) hpre'
          apply hcond
          refine ⟨by simp [hpat], List.isPrefixOf_iff_prefix.mpr ?_⟩
          rw [hpat]
          exact List.cons_prefix_cons.mpr ⟨h0, hsub⟩
      · exact replaceAll_no_occurrence pat rep p0 r0 pat' rep' hpat hrep hp0 hr0 cs hinf
termination_by s.length

/-- Each of the `countOcc pat s` replacements swaps `pat.length`
characters for `rep.length` characters; nothing else changes length. -/
theorem replaceAll_length_eq (pat rep : List Char) (hp : pat ≠ []) (s : List Char) :
    (replaceAllL pat rep s).length + countOcc pat s * pat.length =
      s.length + countOcc pat s * rep.length := by
  match s with
  | [] => simp [replaceAllL, countOcc]
  | c :: cs =>
    rw [replaceAllL, countOcc]
    split
    · rename_i hcond
      have hple : pat.length ≤ (c :: cs).length :=
        (List.isPrefixOf_iff_prefix.mp hcond.2).length_le
      have hpl : 1 ≤ pat.length := List.length_pos.mpr hp
      have ih := replaceAll_length_eq pat rep hp (cs.drop (pat.length - 1))
      simp only [List.length_append, List.length_cons, List.length_drop] at *
      rw [Nat.succ_mul, Nat.succ_mul]
      omega
    · have ih := replaceAll_length_eq pat rep hp cs
      simp only [List.length_cons]
      omega
termination_by s.length

/-! ### Renderer structure -/

/-- The renderer's output over a sibling list is one record per node of
the forest, in depth-first pre-order. -/
theorem genList_eq_preorder (render : DocNode → String) (l : List DocNode) :
    genList render l = (preorderForest l).map render := by
  match l with
  | [] => rw [genList, preorderForest]; rfl
  | DocNode.mk c b w k cm t d ch :: siblings =>
    rw [genList, preorderForest]
    rw [genList_eq_preorder render ch, genList_eq_preorder render siblings]
    simp
termination_by sizeOf l

/-! ### Sibling anchor uniqueness -/

/-- The pairing loop only ever extends its accumulator with nodes whose
anchor passed `Validate` against the accumulator, so a successful result
has pairwise-distinct anchors whenever the accumulator started with
pairwise-distinct anchors. -/
theorem parseLoop_anchors_nodup (nodeContent : List YamlNode) (i : Nat)
    (parentBreadcrumb : String) (parentWasMap : Bool) (acc ns : List DocNode)
    (hacc : (acc.map DocNode.HTMLAnchor).Nodup)
    (h : parseLoop nodeContent i parentBreadcrumb parentWasMap acc = .ok ns) :
    (ns.map DocNode.HTMLAnchor).Nodup := by
  rw [parseLoop] at h
  split at h
  · rename_i hlt
    cases hb : buildDocNode i nodeContent[i] nodeContent parentBreadcrumb parentWasMap with
    | error e => simp [hb] at h
    | ok d =>
      simp only [hb] at h
      cases hv : Validate d acc with
      | some m => simp [hv] at h
      | none =>
        simp only [hv] at h
        have hnotin : d.HTMLAnchor ∉ acc.map DocNode.HTMLAnchor := by
          intro hmem
          obtain ⟨s, hs, hanch⟩ := List.mem_map.mp hmem
          have hany : (acc.any fun s => s.HTMLAnchor = d.HTMLAnchor) = true :=
            List.any_eq_true.mpr ⟨s, hs, decide_eq_true hanch⟩
          rw [Validate, if_pos hany] at hv
          exact Option.noConfusion hv
        refine parseLoop_anchors_nodup nodeContent (i + 2) parentBreadcrumb parentWasMap
          (acc ++ [d]) ns ?_ h
        simp only [List.map_append, List.map_cons, List.map_nil]
        exact List.Nodup.append hacc (List.nodup_singleton _)
          (by simpa [List.disjoint_singleton] using hnotin)
  · simp only [Except.ok.injEq] at h
    rw [← h]
    exact hacc
termination_by nodeContent.length - i

/-- A successful parseNodeContent run yields siblings with
pairwise-distinct anchors. -/
theorem parseNodeContent_anchors_nodup (nodeContent : List YamlNode)
    (parentBreadcrumb : String) (parentWasMap : Bool) (ns : List DocNode)
    (h : parseNodeContent nodeContent parentBreadcrumb parentWasMap = .ok ns) :
    (ns.map DocNode.HTMLAnchor).Nodup := by
  rw [parseNodeContent.eq_def] at h
  split at h
  · rename_i n
    exact parseNodeContent_anchors_nodup n.content parentBreadcrumb true ns h
  · exact parseLoop_anchors_nodup _ 0 parentBreadcrumb parentWasMap [] ns (by simp) h
termination_by sizeOf nodeContent
decreasing_by
rename_i n heq
subst heq
have h1 := YamlNode.sizeOf_content_lt n
simp only [List.cons.sizeOf_spec, List.nil.sizeOf_spec]
omega

/-! ### Claim theorems -/

/-- C1: for every key node whose head comment carries `@recurse: false`,
buildDocNode returns a terminal DocNode carrying only column,
parentBreadcrumb, key, and comment — kindTag and default are absent (Go
zero value ""), there are no children, and the result does not depend on
the node-content list, so the paired value is never inspected or
descended into, whatever its shape. -/
theorem C1_recurse_false_terminal (nodeContentIdx : Nat) (currNode : YamlNode)
    (nodeContent : List YamlNode) (parentBreadcrumb : String) (parentWasMap : Bool)
    (hrec : recurseAnnotationCapture currNode.headComment = some "false") :
    buildDocNode nodeContentIdx currNode nodeContent parentBreadcrumb parentWasMap =
      .ok (DocNode.mk currNode.column parentBreadcrumb false currNode.value
        currNode.headComment "" "" []) := by
  rw [buildDocNode, if_pos hrec]

/-- A `@recurse: false` key paired with a non-empty mapping value. -/
def c1key : YamlNode :=
  .mk .scalar "!!str" "gateways" 1 "# Gateway docs.\n# @recurse: false\n# @type: array<map>"
    .plain []

def c1grandKey : YamlNode := .mk .scalar "!!str" "name" 3 "" .plain []

def c1grandVal : YamlNode := .mk .scalar "!!str" "ingress" 9 "" .plain []

def c1val : YamlNode := .mk .mapping "!!map" "" 3 "" .plain [c1grandKey, c1grandVal]

theorem C1_witness :
    buildDocNode 0 c1key [c1key, c1val] "" true =
      .ok (DocNode.mk c1key.column "" false c1key.value c1key.headComment "" "" []) :=
  C1_recurse_false_terminal 0 c1key [c1key, c1val] "" true (by decide)

/-- C3: a node-content sequence containing exactly one top-level node is
unwrapped transparently: parseNodeContent recurses directly into the
wrapper's content with the same parentBreadcrumb, emitting no DocNode for
the wrapper itself. -/
theorem C3_single_element_unwrapped (n : YamlNode) (parentBreadcrumb : String)
    (parentWasMap : Bool) :
    parseNodeContent [n] parentBreadcrumb parentWasMap =
      parseNodeContent n.content parentBreadcrumb true := by
  rw [parseNodeContent]

/-- C5: a key paired with an empty sequence value yields a leaf whose
default is exactly "[]" and whose children list is empty. -/
theorem C5_empty_sequence_default (nodeContentIdx : Nat) (currNode next : YamlNode)
    (nodeContent : List YamlNode) (parentBreadcrumb : String) (parentWasMap : Bool)
    (hrec : recurseAnnotationCapture currNode.headComment ≠ some "false")
    (hnext : nodeContent[nodeContentIdx + 1]? = some next)
    (hkind : next.kind = YKind.sequence)
    (hempty : next.content = []) :
    buildDocNode nodeContentIdx currNode nodeContent parentBreadcrumb parentWasMap =
      .ok (DocNode.mk currNode.column parentBreadcrumb parentWasMap currNode.value
        currNode.headComment next.tag "[]" []) := by
  obtain ⟨hlt, hget⟩ := List.getElem?_eq_some.mp hnext
  rw [buildDocNode, if_neg hrec, buildDocNodePair, if_neg (by omega), dif_pos hlt]
  simp only [hget, hkind, hempty, List.length_nil]
  rfl

def c5key : YamlNode := .mk .scalar "!!str" "extraVolumes" 1 "# Extra volumes." .plain []

def c5val : YamlNode := .mk .sequence "!!seq" "" 14 "" .plain []

theorem C5_witness :
    buildDocNode 0 c5key [c5key, c5val] "" false =
      .ok (DocNode.mk c5key.column "" false c5key.value c5key.headComment c5val.tag "[]" []) :=
  C5_empty_sequence_default 0 c5key c5val [c5key, c5val] "" false (by decide) rfl rfl rfl

/-- C4 (amended): a key paired with a non-empty all-scalar sequence
yields a leaf (no children) whose default is toInlineYaml of the
elements: the flow-style rendering of the scalars followed by the
serializer's trailing newline. -/
theorem C4_all_scalar_sequence_default (nodeContentIdx : Nat) (currNode next : YamlNode)
    (nodeContent : List YamlNode) (parentBreadcrumb : String) (parentWasMap : Bool)
    (hrec : recurseAnnotationCapture currNode.headComment ≠ some "false")
    (hnext : nodeContent[nodeContentIdx + 1]? = some next)
    (hkind : next.kind = YKind.sequence)
    (hne : next.content ≠ [])
    (hscal : allScalars next.content = true) :
    buildDocNode nodeContentIdx currNode nodeContent parentBreadcrumb parentWasMap =
      .ok (DocNode.mk currNode.column parentBreadcrumb parentWasMap currNode.value
        currNode.headComment next.tag (toInlineYaml next.content) []) := by
  obtain ⟨hlt, hget⟩ := List.getElem?_eq_some.mp hnext
  have hlen : next.content.length ≠ 0 := by
    intro h0
    exact hne (List.length_eq_zero.mp h0)
  rw [buildDocNode, if_neg hrec, buildDocNodePair, if_neg (by omega), dif_pos hlt]
  simp only [hget, hkind, if_neg hlen, if_pos hscal]

def c4elemA : YamlNode := .mk .scalar "!!str" "a" 8 "" .doubleQuoted []

def c4elemB : YamlNode := .mk .scalar "!!str" "b" 8 "" .doubleQuoted []

def c4key : YamlNode := .mk .scalar "!!str" "serverAdditionalDNSNames" 1 "" .plain []

def c4val : YamlNode := .mk .sequence "!!seq" "" 6 "" .plain [c4elemA, c4elemB]

/-- C4 counterexample: for the elements "a", "b" (double-quoted scalars)
the resulting default is the flow rendering *plus the serializer's
trailing newline*, which is not the exact string the claim gives. -/
theorem C4_counterexample :
    (buildDocNode 0 c4key [c4key, c4val] "" false =
      .ok (DocNode.mk 1 "" false "serverAdditionalDNSNames" "" "!!seq" "[\"a\", \"b\"]\n" [])) ∧
    ("[\"a\", \"b\"]\n" : String) ≠ "[\"a\", \"b\"]" := by
  constructor
  · simp +decide [buildDocNode, buildDocNodePair, c4key, c4val, c4elemA, c4elemB,
      YamlNode.headComment, YamlNode.column, YamlNode.value, YamlNode.tag, YamlNode.kind,
      YamlNode.content, YamlNode.style, allScalars, toInlineYaml, trimPrefixStr, marshalScalar]
  · decide

theorem C4_witness :
    buildDocNode 0 c4key [c4key, c4val] "" false =
      .ok (DocNode.mk c4key.column "" false c4key.value c4key.headComment c4val.tag
        (toInlineYaml c4val.content) []) :=
  C4_all_scalar_sequence_default 0 c4key c4val [c4key, c4val] "" false (by decide) rfl rfl
    (by simp [c4val, YamlNode.content]) (by decide)

/-- C10: a matching @recurse directive whose captured value is anything
but the exact string "false" is ignored entirely: buildDocNode proceeds
with the normal value-shape dispatch (buildDocNodePair), exactly as when
no directive is present. -/
theorem C10_nonfalse_recurse_ignored (nodeContentIdx : Nat) (currNode : YamlNode)
    (nodeContent : List YamlNode) (parentBreadcrumb : String) (parentWasMap : Bool)
    (hrec : recurseAnnotationCapture currNode.headComment ≠ some "false") :
    buildDocNode nodeContentIdx currNode nodeContent parentBreadcrumb parentWasMap =
      buildDocNodePair nodeContentIdx currNode nodeContent parentBreadcrumb parentWasMap := by
  rw [buildDocNode, if_neg hrec]

def c10key : YamlNode :=
  .mk .scalar "!!str" "affinity" 1 "# Affinity settings.\n# @recurse: true" .plain []

def c10val : YamlNode := .mk .scalar "!!str" "null" 11 "" .plain []

theorem C10_witness :
    buildDocNode 0 c10key [c10key, c10val] "" false =
      buildDocNodePair 0 c10key [c10key, c10val] "" false :=
  C10_nonfalse_recurse_ignored 0 c10key [c10key, c10val] "" false (by decide)

/-- The odd-length flattened mapping content for C2: a key, its value,
and a trailing key with no paired value. -/
def c2key1 : YamlNode := .mk .scalar "!!str" "replicas" 1 "" .plain []

def c2val1 : YamlNode := .mk .scalar "!!int" "3" 11 "" .plain []

def c2key2 : YamlNode := .mk .scalar "!!str" "storage" 1 "" .plain []

/-- C2: on a flattened mapping content with an odd element count the
build does NOT fail with the intended structural pairing error — the
guard `len(nodeContent) < nodeContentIdx+1` can never be true for an
in-range loop index (the loop visits only valid indices, for which
len >= idx+1), so the intended *ParseError branch is dead and the code
instead panics indexing `nodeContent[nodeContentIdx+1]`. -/
theorem C2_odd_pairing_panics :
    parseNodeContent [c2key1, c2val1, c2key2] "" false =
      .error (.runtimePanic "index out of range") := by
  simp +decide [parseNodeContent, parseLoop, buildDocNode, buildDocNodePair, Validate,
    c2key1, c2val1, c2key2, YamlNode.headComment, YamlNode.column, YamlNode.value,
    YamlNode.tag, YamlNode.kind, YamlNode.content]

def c6val1 : YamlNode := .mk .scalar "!!str" "x" 9 "" .plain []

def c6val2 : YamlNode := .mk .scalar "!!str" "y" 9 "" .plain []

/-- Two sibling keys that normalize to the same anchor. -/
def c6keyAa : YamlNode := .mk .scalar "!!str" "Aa" 1 "" .plain []

def c6keyaA : YamlNode := .mk .scalar "!!str" "aA" 1 "" .plain []

/-- C6: within every sibling group, accepted DocNodes have pairwise
distinct computed anchors; and a document whose sibling keys "Aa" and
"aA" normalize to the same anchor "-aa" fails with a validation error
carrying the colliding anchor path, the whole construction aborting with
an error instead of any partial result. -/
theorem C6_sibling_anchor_unique :
    (∀ (nodeContent : List YamlNode) (parentBreadcrumb : String) (parentWasMap : Bool)
        (ns : List DocNode),
      parseNodeContent nodeContent parentBreadcrumb parentWasMap = .ok ns →
        (ns.map DocNode.HTMLAnchor).Nodup) ∧
    parseNodeContent [c6keyAa, c6val1, c6keyaA, c6val2] "" false =
      .error (.parseError (ParseError.mk "-aa" "" "" "duplicate html anchor: -aa")) := by
  constructor
  · exact parseNodeContent_anchors_nodup
  · simp +decide [parseNodeContent, parseLoop, buildDocNode, buildDocNodePair, Validate,
      c6keyAa, c6keyaA, c6val1, c6val2, YamlNode.headComment, YamlNode.column, YamlNode.value,
      YamlNode.tag, YamlNode.kind, YamlNode.content, DocNode.HTMLAnchor, sanitizeAnchor,
      DocNode.parentBreadcrumb, DocNode.key]

def c6okKey1 : YamlNode := .mk .scalar "!!str" "alpha" 1 "" .plain []

def c6okKey2 : YamlNode := .mk .scalar "!!str" "beta" 1 "" .plain []

theorem C6_witness :
    (([DocNode.mk 1 "" false "alpha" "" "!!str" "x" [],
        DocNode.mk 1 "" false "beta" "" "!!str" "y" []].map DocNode.HTMLAnchor)).Nodup :=
  C6_sibling_anchor_unique.1 [c6okKey1, c6val1, c6okKey2, c6val2] "" false
    [DocNode.mk 1 "" false "alpha" "" "!!str" "x" [],
      DocNode.mk 1 "" false "beta" "" "!!str" "y" []]
    (by simp +decide [parseNodeContent, parseLoop, buildDocNode, buildDocNodePair, Validate,
      c6okKey1, c6okKey2, c6val1, c6val2, YamlNode.headComment, YamlNode.column, YamlNode.value,
      YamlNode.tag, YamlNode.kind, YamlNode.content, DocNode.HTMLAnchor, sanitizeAnchor,
      DocNode.parentBreadcrumb, DocNode.key])

/-- C7: the renderer emits exactly one record per non-root node in
depth-first pre-order (a node's record, then its children's records,
recursively, then the next sibling), starting at the root's children so
the synthetic root is never rendered; the final output is these records
joined with blank lines (with the sentinel substitution of C8 then
applied over the joined text). -/
theorem C7_preorder_rendering :
    (∀ (render : DocNode → String) (node : DocNode),
      generateDocsFromNode render node = (preorderForest node.children).map render) ∧
    (∀ (render : DocNode → String) (rootContent : List YamlNode) (node : DocNode),
      Parse rootContent = .ok node →
        GenerateDocs render rootContent =
          .ok (replaceAllStr
            (String.intercalate "\n\n" ((preorderForest node.children).map render))
            "[Enterprise Only]" "<EnterpriseAlert inline />")) := by
  constructor
  · intro render node
    rw [generateDocsFromNode, genList_eq_preorder]
  · intro render rootContent node hparse
    simp only [GenerateDocs, hparse, generateDocsFromNode, genList_eq_preorder]

def c7key : YamlNode := .mk .scalar "!!str" "enabled" 1 "# Enable." .plain []

def c7val : YamlNode := .mk .scalar "!!bool" "true" 10 "" .plain []

/-- The DocNode tree Parse builds from [c7key, c7val]. -/
def c7node : DocNode :=
  DocNode.mk 0 "" false "" "" "" ""
    [DocNode.mk 1 "" false "enabled" "# Enable." "!!bool" "true" []]

theorem C7_witness :
    GenerateDocs DocNode.key [c7key, c7val] =
      .ok (replaceAllStr
        (String.intercalate "\n\n" ((preorderForest c7node.children).map DocNode.key))
        "[Enterprise Only]" "<EnterpriseAlert inline />") :=
  C7_preorder_rendering.2 DocNode.key [c7key, c7val] c7node
    (by simp +decide [Parse, parseNodeContent, parseLoop, buildDocNode, buildDocNodePair,
      Validate, c7key, c7val, c7node, YamlNode.headComment, YamlNode.column, YamlNode.value,
      YamlNode.tag, YamlNode.kind, YamlNode.content])

/-- C8: GenerateDocs applies, once, after joining the records, a global
replacement of the sentinel "[Enterprise Only]" by the markup
"<EnterpriseAlert inline />"; the replaced text contains no occurrence
of the sentinel, and the output length accounts for exactly one
replacement per occurrence consumed by the scan. -/
theorem C8_sentinel_substitution :
    (∀ (render : DocNode → String) (rootContent : List YamlNode) (node : DocNode),
      Parse rootContent = .ok node →
        GenerateDocs render rootContent =
          .ok (replaceAllStr (String.intercalate "\n\n" (generateDocsFromNode render node))
            "[Enterprise Only]" "<EnterpriseAlert inline />")) ∧
    (∀ s : List Char,
      ¬ "[Enterprise Only]".data <:+:
          replaceAllL "[Enterprise Only]".data "<EnterpriseAlert inline />".data s) ∧
    (∀ s : List Char,
      (replaceAllL "[Enterprise Only]".data "<EnterpriseAlert inline />".data s).length +
          countOcc "[Enterprise Only]".data s * "[Enterprise Only]".data.length =
        s.length +
          countOcc "[Enterprise Only]".data s * "<EnterpriseAlert inline />".data.length) := by
  refine ⟨?_, ?_, ?_⟩
  · intro render rootContent node hparse
    simp only [GenerateDocs, hparse]
  · intro s
    exact replaceAll_no_occurrence "[Enterprise Only]".data "<EnterpriseAlert inline />".data
      '[' '<' "Enterprise Only]".data "EnterpriseAlert inline />".data
      (by decide) (by decide) (by decide) (by decide) s
  · intro s
    exact replaceAll_length_eq "[Enterprise Only]".data "<EnterpriseAlert inline />".data
      (by decide) s

def c8key : YamlNode :=
  .mk .scalar "!!str" "license" 1 "# [Enterprise Only] The license." .plain []

def c8val : YamlNode := .mk .scalar "!!str" "" 10 "" .plain []

/-- The DocNode tree Parse builds from [c8key, c8val]. -/
def c8node : DocNode :=
  DocNode.mk 0 "" false "" "" "" ""
    [DocNode.mk 1 "" false "license" "# [Enterprise Only] The license." "!!str" "" []]

theorem C8_witness :
    GenerateDocs DocNode.comment [c8key, c8val] =
      .ok (replaceAllStr
        (String.intercalate "\n\n" (generateDocsFromNode DocNode.comment c8node))
        "[Enterprise Only]" "<EnterpriseAlert inline />") :=
  C8_sentinel_substitution.1 DocNode.comment [c8key, c8val] c8node
    (by simp +decide [Parse, parseNodeContent, parseLoop, buildDocNode, buildDocNodePair,
      Validate, c8key, c8val, c8node, YamlNode.headComment, YamlNode.column, YamlNode.value,
      YamlNode.tag, YamlNode.kind, YamlNode.content])

/-- The head comment whose only `@recurse: false` lies inside a fenced
example block. -/
def c9comment : String := "# Example:\n# ```yaml\n# @recurse: false\n# ```"

def c9key : YamlNode := .mk .scalar "!!str" "server" 1 c9comment .plain []

def c9child1 : YamlNode := .mk .scalar "!!str" "enabled" 3 "" .plain []

def c9child2 : YamlNode := .mk .scalar "!!bool" "true" 12 "" .plain []

def c9val : YamlNode := .mk .mapping "!!map" "" 3 "" .plain [c9child1, c9child2]

/-- C9 counterexample: a `@recurse: false` line occurring only inside a
fenced example IS picked up as a directive — on this node buildDocNode
diverges from the normal value-shape dispatch (buildDocNodePair): it
stops instead of descending into the mapping value. -/
theorem C9_counterexample :
    recurseAnnotationCapture c9comment = some "false" ∧
    buildDocNode 0 c9key [c9key, c9val] "" false ≠
      buildDocNodePair 0 c9key [c9key, c9val] "" false := by
  constructor
  · decide
  · have hl : buildDocNode 0 c9key [c9key, c9val] "" false =
        .ok (DocNode.mk 1 "" false "server" c9comment "" "" []) := by
      simp +decide [buildDocNode, c9key, c9comment, YamlNode.headComment, YamlNode.column,
        YamlNode.value]
    have hr : buildDocNodePair 0 c9key [c9key, c9val] "" false =
        .ok (DocNode.mk 1 "" false "server" c9comment "!!map" ""
          [DocNode.mk 3 "-server" false "enabled" "" "!!bool" "true" []]) := by
      simp +decide [buildDocNodePair, parseNodeContent, parseLoop, buildDocNode, Validate,
        c9key, c9val, c9child1, c9child2, c9comment, YamlNode.headComment, YamlNode.column,
        YamlNode.value, YamlNode.tag, YamlNode.kind, YamlNode.content, DocNode.HTMLAnchor,
        sanitizeAnchor, DocNode.parentBreadcrumb, DocNode.key, DocNode.withChildren]
    rw [hl, hr]
    simp +decide

/-- C9 (amended): directive matching is fence-unaware — a comment whose
only `@recurse: false` occurrence lies inside a fenced example does stop
the builder's recursion, and the fenced content is carried verbatim in
the resulting terminal node's comment field. -/
theorem C9_fenced_directive_stops :
    recurseAnnotationCapture c9comment = some "false" ∧
    buildDocNode 0 c9key [c9key, c9val] "" false =
      .ok (DocNode.mk 1 "" false "server" c9comment "" "" []) ∧
    (DocNode.mk 1 "" false "server" c9comment "" "" []).comment = c9comment := by
  refine ⟨by decide, ?_, rfl⟩
  simp +decide [buildDocNode, c9key, c9comment, YamlNode.headComment, YamlNode.column,
    YamlNode.value]

end ConsulHelmGen
